import Mathlib

/-!
Verification of the request-execution and consistency core of a JSON-RPC
ledger client (diem/jsonrpc/client.py): the ledger-state tracker, the
response pipeline, the staleness retry policy, the primary/backup fallback
strategy, and the transaction-wait loop.

Python exceptions are modelled with `Except`; the mutable tracker state is
threaded explicitly. Integers are unbounded (`Int`), matching Python.
-/

/-- Exception kinds raised by the client (classes from the errors module and
the Python built-in TypeError, identified by kind). -/
inductive ExnKind where
  | invalidServerResponse
  | staleResponseError
  | jsonRpcError
  | networkError
  | typeError
  | transactionHashMismatchError
  | transactionExecutionFailed
  | transactionExpired
  | waitForTransactionTimeout
  deriving DecidableEq, Repr

/-- Modelled from the spec: the LedgerState record (module diem.jsonrpc.state
is outside the embedded source; client.py constructs it with keyword fields
chain_id, version, timestamp_usecs). `chain_id` is `Option Int` because the
call site in `_send_http_request` passes `json.get` results, and a missing
(None) chain id passes the dynamic checks and is stored as-is; `version` and
`timestamp_usecs` can never be stored as None because the ordering comparison
with None raises TypeError first. -/
structure State where
  chain_id : Option Int
  version : Int
  timestamp_usecs : Int
  deriving DecidableEq, Repr

/-- Initial tracker state `State(chain_id=-1, version=-1, timestamp_usecs=-1)`
set in `Client.__init__`. -/
def initialState : State := ⟨some (-1), -1, -1⟩

/-- Python `!=` between two possibly-None integer values: None is unequal to
every int and equal to None. -/
def pyNe : Option Int → Option Int → Bool
  | none, none => false
  | none, some _ => true
  | some _, none => true
  | some a, some b => a != b

/-- Embedding of `Client.update_last_known_state`. The arguments come from
`json.get`, hence `Option Int`; per Python semantics an ordering comparison
between an int and None raises TypeError, while `!=` does not. Order of the
checks follows the source: chain id first, then version, then timestamp.
On success the stored state is replaced by the incoming triple. -/
def update_last_known_state (curr : State) (chain_id version timestamp_usecs : Option Int) :
    Except ExnKind State :=
  if pyNe curr.chain_id (some (-1)) && pyNe curr.chain_id chain_id then
    Except.error ExnKind.invalidServerResponse
  else
    match version with
    | none => Except.error ExnKind.typeError
    | some v =>
      if curr.version > v then Except.error ExnKind.staleResponseError
      else
        match timestamp_usecs with
        | none => Except.error ExnKind.typeError
        | some t =>
          if curr.timestamp_usecs > t then Except.error ExnKind.staleResponseError
          else Except.ok ⟨chain_id, v, t⟩

/-- One tracker call as a state transformer: a raised exception leaves the
stored state unchanged (the source only assigns after all checks pass). -/
def applyUpdate (st : State) (u : Int × Int × Int) : State :=
  match update_last_known_state st (some u.1) (some u.2.1) (some u.2.2) with
  | Except.ok st2 => st2
  | Except.error _ => st

/-- A sequence of tracker calls applied in order. -/
def applyUpdates (st : State) (us : List (Int × Int × Int)) : State :=
  us.foldl applyUpdate st

/-- Decoded JSON-RPC response envelope as consumed by the pipeline: presence
of the "result" and "error" members (payloads abstracted as `Nat`) and the
three optional ledger-state fields. -/
structure Envelope where
  result : Option Nat
  error : Option Nat
  diem_chain_id : Option Int
  diem_ledger_version : Option Int
  diem_ledger_timestampusec : Option Int
  deriving DecidableEq, Repr

/-- Embedding of the tail of `Client._send_http_request` (after HTTP send and
JSON decode): feed the envelope's ledger-state fields to the tracker; a
StaleResponseError is re-raised unless `ignore_stale_response`, any other
exception propagates; on success or swallowed staleness the envelope is
returned together with the (possibly updated) tracker state. -/
def send_http_request (st : State) (env : Envelope) (ignore_stale_response : Bool) :
    State × Except ExnKind Envelope :=
  match update_last_known_state st env.diem_chain_id env.diem_ledger_version
      env.diem_ledger_timestampusec with
  | Except.ok st2 => (st2, Except.ok env)
  | Except.error e =>
    match e with
    | ExnKind.staleResponseError =>
      if ignore_stale_response then (st, Except.ok env) else (st, Except.error e)
    | _ => (st, Except.error e)

/-- Embedding of the result/error classification in
`Client.execute_without_retry`: a present "error" member raises JsonRpcError;
else a present "result" member is decoded (or None returned when no decoder
was supplied); else InvalidServerResponse. -/
def classify_response (env : Envelope) (resultDecoder : Option (Nat → Nat)) :
    Except ExnKind (Option Nat) :=
  match env.error with
  | some _ => Except.error ExnKind.jsonRpcError
  | none =>
    match env.result with
    | some r =>
      match resultDecoder with
      | some d => Except.ok (some (d r))
      | none => Except.ok none
    | none => Except.error ExnKind.invalidServerResponse

/-- Embedding of `Client.execute_without_retry` from the point where the
decoded envelope is available: run the per-call pipeline
(`_send_http_request` tail), then classify the same envelope. The tracker
state is threaded explicitly. -/
def execute_without_retry (st : State) (env : Envelope) (resultDecoder : Option (Nat → Nat))
    (ignore_stale_response : Bool) : State × Except ExnKind (Option Nat) :=
  match send_http_request st env ignore_stale_response with
  | (st2, Except.ok json) => (st2, classify_response json resultDecoder)
  | (st2, Except.error e) => (st2, Except.error e)

/-- Decidable equality of outcomes, used to evaluate the model on concrete
inputs. -/
instance {ε α : Type} [DecidableEq ε] [DecidableEq α] : DecidableEq (Except ε α) := fun x y =>
  match x, y with
  | Except.ok a, Except.ok b =>
    if h : a = b then Decidable.isTrue (by rw [h]) else Decidable.isFalse (by simp [h])
  | Except.error e, Except.error f =>
    if h : e = f then Decidable.isTrue (by rw [h]) else Decidable.isFalse (by simp [h])
  | Except.ok _, Except.error _ => Decidable.isFalse (by simp)
  | Except.error _, Except.ok _ => Decidable.isFalse (by simp)

/-- An exception instance: its class (kind) plus an identifying payload, so
that "the failure raised by the final attempt itself" is expressible. -/
structure Exn where
  kind : ExnKind
  detail : Nat
  deriving DecidableEq, Repr

/-- Kind of the exception an operation outcome raised, if any. -/
def errKindOf {α : Type} : Except Exn α → Option ExnKind
  | Except.ok _ => none
  | Except.error e => some e.kind

/-- Embedding of the `Retry` dataclass configuration: `max_retries`,
`delay_secs` and the retryable exception class (identified by kind). -/
structure Retry where
  max_retries : Nat
  delay_secs : ℚ
  exception : ExnKind
  deriving DecidableEq, Repr

/-- Observable trace of one `Retry.execute` run: how many times the operation
was invoked, the sleeps performed between attempts, and the final outcome
(`Except.ok none` models the Python function falling off the while loop and
returning None, which happens only when `max_retries = 0`). -/
structure RetryTrace (α : Type) where
  calls : Nat
  sleeps : List ℚ
  outcome : Except Exn (Option α)
  deriving DecidableEq, Repr

/-- Embedding of the while loop of `Retry.execute`. `tries` is the number of
attempts already made, `remaining` is `max_retries - tries`; the operation is
modelled as a function from the (1-based) attempt number to its outcome. An
exception of the configured kind is retried after sleeping
`delay_secs * tries` unless this was the final attempt; any other exception
propagates uncaught. -/
def retryLoop {α : Type} (r : Retry) (fn : Nat → Except Exn α) :
    Nat → Nat → RetryTrace α
  | _, 0 => ⟨0, [], Except.ok none⟩
  | tries, remaining + 1 =>
    match fn (tries + 1) with
    | Except.ok v => ⟨1, [], Except.ok (some v)⟩
    | Except.error e =>
      if e.kind = r.exception then
        match remaining with
        | 0 => ⟨1, [], Except.error e⟩
        | m + 1 =>
          ⟨(retryLoop r fn (tries + 1) (m + 1)).calls + 1,
           r.delay_secs * ((tries + 1 : Nat) : ℚ) :: (retryLoop r fn (tries + 1) (m + 1)).sleeps,
           (retryLoop r fn (tries + 1) (m + 1)).outcome⟩
      else ⟨1, [], Except.error e⟩

/-- Embedding of `Retry.execute`: start with zero tries and `max_retries`
attempts remaining. -/
def Retry.execute {α : Type} (r : Retry) (fn : Nat → Except Exn α) : RetryTrace α :=
  retryLoop r fn 0 r.max_retries

/-- Embedding of `RequestWithBackups._fallback_to_backup`: wait for the
primary; on any exception from it, return the backup's result (or re-raise
the backup's own failure). -/
def fallback_to_backup {α : Type} (primary backup : Except ExnKind α) : Except ExnKind α :=
  match primary with
  | Except.ok v => Except.ok v
  | Except.error _ => backup

/-- On-chain transaction as inspected by the wait loop: its hash and the type
tag of its vm_status (payloads abstracted as `Nat`). -/
structure Txn where
  hash : Nat
  vm_status_type : Nat
  deriving DecidableEq, Repr

/-- Modelled from the spec: the success execution-status tag
(`VM_STATUS_EXECUTED` from the constants module, which is outside the
embedded source); an opaque code, no claim depends on its value. -/
def VM_STATUS_EXECUTED : Nat := 0

/-- Modelled from the spec: the built-in default timeout of the wait loop
(constant from the constants module, outside the embedded source); an opaque
positive duration, no claim depends on its value. -/
def DEFAULT_WAIT_FOR_TRANSACTION_TIMEOUT_SECS : ℚ := 30

/-- Modelled from the spec: the built-in default poll interval of the wait
loop (constant from the constants module, outside the embedded source); an
opaque positive duration, no claim depends on its value. -/
def DEFAULT_WAIT_FOR_TRANSACTION_WAIT_DURATION_SECS : ℚ := 1 / 5

/-- Python `x or default` for an optional float argument: None and 0.0 are
falsy and replaced by the default, any other value is kept. -/
def pyOrDefault (x : Option ℚ) (d : ℚ) : ℚ :=
  match x with
  | none => d
  | some t => if t = 0 then d else t

/-- Environment of one wait run: `startTime` is the clock value read on
entry, `timeAt i` the clock value at the i-th while-condition check,
`stateAt i` the tracker snapshot and `txnAt i` the lookup collaborator's
answer observed during the i-th iteration. -/
structure WaitEnv where
  startTime : ℚ
  timeAt : Nat → ℚ
  stateAt : Nat → State
  txnAt : Nat → Option Txn

/-- Embedding of the while loop of `Client.wait_for_transaction2`, iteration
index `i`, with fuel (`none` means the fuel ran out with the loop still
polling). Per iteration, in source order: check the clock against
`max_wait`; read the tracker snapshot; look the transaction up; on a found
transaction check hash then vm_status then return it; otherwise check
expiration against the snapshot's timestamp; otherwise sleep the poll
interval (recorded in the first component) and repeat. -/
def wait_loop (env : WaitEnv) (exp_secs : Int) (txn_hash : Nat) (max_wait poll : ℚ) :
    Nat → Nat → List ℚ × Option (Except ExnKind Txn)
  | 0, _ => ([], none)
  | fuel + 1, i =>
    if env.timeAt i < max_wait then
      match env.txnAt i with
      | some txn =>
        if txn.hash != txn_hash then
          ([], some (Except.error ExnKind.transactionHashMismatchError))
        else if txn.vm_status_type != VM_STATUS_EXECUTED then
          ([], some (Except.error ExnKind.transactionExecutionFailed))
        else ([], some (Except.ok txn))
      | none =>
        if exp_secs * 1000000 ≤ (env.stateAt i).timestamp_usecs then
          ([], some (Except.error ExnKind.transactionExpired))
        else
          (poll :: (wait_loop env exp_secs txn_hash max_wait poll fuel (i + 1)).1,
           (wait_loop env exp_secs txn_hash max_wait poll fuel (i + 1)).2)
    else ([], some (Except.error ExnKind.waitForTransactionTimeout))

/-- Embedding of `Client.wait_for_transaction2`: `max_wait` is the entry
clock value plus `timeout_secs or DEFAULT_WAIT_FOR_TRANSACTION_TIMEOUT_SECS`,
the poll interval is `wait_duration_secs or
DEFAULT_WAIT_FOR_TRANSACTION_WAIT_DURATION_SECS` (Python falsy-or on
optional floats). -/
def wait_for_transaction2 (env : WaitEnv) (exp_secs : Int) (txn_hash : Nat)
    (timeout_secs wait_duration_secs : Option ℚ) (fuel : Nat) :
    List ℚ × Option (Except ExnKind Txn) :=
  wait_loop env exp_secs txn_hash
    (env.startTime + pyOrDefault timeout_secs DEFAULT_WAIT_FOR_TRANSACTION_TIMEOUT_SECS)
    (pyOrDefault wait_duration_secs DEFAULT_WAIT_FOR_TRANSACTION_WAIT_DURATION_SECS)
    fuel 0

/-- Scenario for the retry witness: the operation raises the retryable
staleness exception on attempt 1 and succeeds on attempt 2. -/
def retryStaleOnceFn : Nat → Except Exn Nat := fun i =>
  if i ≤ 1 then Except.error ⟨ExnKind.staleResponseError, 7⟩ else Except.ok 42

/-- Scenario for the retry witness: the operation raises the retryable
staleness exception on every attempt, with the attempt number as payload. -/
def retryAlwaysStaleFn : Nat → Except Exn Nat := fun i =>
  Except.error ⟨ExnKind.staleResponseError, i⟩

/-- Scenario for the retry witness: the operation raises a non-retryable
network exception on every attempt. -/
def retryNetworkFailFn : Nat → Except Exn Nat := fun i =>
  Except.error ⟨ExnKind.networkError, i⟩

/-- Scenario for the wait witness: the lookup never finds the transaction and
the tracked ledger timestamp crosses 1000000 microseconds at iteration 1. -/
def waitEnvExpiring : WaitEnv :=
  ⟨0, fun _ => 0, fun j => if j = 0 then ⟨some 2, 0, 0⟩ else ⟨some 2, 5, 2000000⟩,
   fun _ => none⟩

theorem applyUpdate_mono (st : State) (u : Int × Int × Int) :
    st.version ≤ (applyUpdate st u).version ∧
    st.timestamp_usecs ≤ (applyUpdate st u).timestamp_usecs := by
  by_cases h1 : (pyNe st.chain_id (some (-1)) && pyNe st.chain_id (some u.1)) = true
  · simp [applyUpdate, update_last_known_state, h1]
  · by_cases h2 : st.version > u.2.1
    · simp [applyUpdate, update_last_known_state, h1, h2]
    · by_cases h3 : st.timestamp_usecs > u.2.2
      · simp [applyUpdate, update_last_known_state, h1, h2, h3]
      · simp only [applyUpdate, update_last_known_state, h1, h2, h3]
        simp
        omega

theorem applyUpdates_mono (us : List (Int × Int × Int)) : ∀ st : State,
    st.version ≤ (applyUpdates st us).version ∧
    st.timestamp_usecs ≤ (applyUpdates st us).timestamp_usecs := by
  induction us with
  | nil => intro st; exact ⟨le_refl _, le_refl _⟩
  | cons u us ih =>
    intro st
    have h1 := applyUpdate_mono st u
    have h2 := ih (applyUpdate st u)
    simp only [applyUpdates, List.foldl_cons] at h2 ⊢
    exact ⟨le_trans h1.1 h2.1, le_trans h1.2 h2.2⟩

/-- C1: across every sequence of tracker update calls the stored version and
timestamp_usecs are non-decreasing; a call that passes the chain-identity
check (which the source applies first) and supplies a version or
timestamp_usecs strictly smaller than the stored value fails with
StaleResponseError and leaves all three stored fields unchanged; otherwise
the stored state is replaced by the incoming triple and the call succeeds. -/
theorem update_last_known_state_monotone :
    (∀ (st : State) (us : List (Int × Int × Int)),
        st.version ≤ (applyUpdates st us).version ∧
        st.timestamp_usecs ≤ (applyUpdates st us).timestamp_usecs) ∧
    (∀ (st : State) (c v t : Int),
        (pyNe st.chain_id (some (-1)) && pyNe st.chain_id (some c)) = false →
        ((v < st.version ∨ t < st.timestamp_usecs) →
            update_last_known_state st (some c) (some v) (some t) =
              Except.error ExnKind.staleResponseError ∧
            applyUpdate st (c, v, t) = st) ∧
        (st.version ≤ v → st.timestamp_usecs ≤ t →
            update_last_known_state st (some c) (some v) (some t) =
              Except.ok (State.mk (some c) v t))) := by
  refine ⟨fun st us => applyUpdates_mono us st, fun st c v t hchain => ⟨?_, ?_⟩⟩
  · intro hlt
    have hupd : update_last_known_state st (some c) (some v) (some t) =
        Except.error ExnKind.staleResponseError := by
      simp only [update_last_known_state, hchain]
      simp only [Bool.false_eq_true, if_false]
      split_ifs with hv ht
      · rfl
      · rfl
      · exfalso; rcases hlt with h | h <;> omega
    exact ⟨hupd, by simp [applyUpdate, hupd]⟩
  · intro hv ht
    simp only [update_last_known_state, hchain]
    simp only [Bool.false_eq_true, if_false]
    split_ifs with h1 h2
    · omega
    · omega
    · rfl

/-- C1 witness: a concrete stale call fails with StaleResponseError and a
concrete fresh call replaces the stored state. -/
theorem update_last_known_state_monotone_inst :
    update_last_known_state ⟨some 2, 5, 5⟩ (some 2) (some 3) (some 9) =
      Except.error ExnKind.staleResponseError ∧
    update_last_known_state ⟨some 2, 5, 5⟩ (some 2) (some 6) (some 7) =
      Except.ok ⟨some 2, 6, 7⟩ :=
  ⟨((update_last_known_state_monotone.2 ⟨some 2, 5, 5⟩ 2 3 9 (by decide)).1
      (by decide)).1,
   (update_last_known_state_monotone.2 ⟨some 2, 5, 5⟩ 2 6 7 (by decide)).2
      (by decide) (by decide)⟩

/-- C2: once the stored chain id is a non-sentinel value, an update with a
different chain id fails with the chain-mismatch exception
(InvalidServerResponse in the source, the spec's InconsistentChain) and
leaves the stored state unchanged, whatever the supplied version and
timestamp are; in particular it never fails with StaleResponseError, the
identity check being applied before the freshness checks. -/
theorem update_chain_mismatch (st : State) (c0 c v t : Int)
    (hc : st.chain_id = some c0) (h0 : c0 ≠ -1) (hne : c ≠ c0) :
    update_last_known_state st (some c) (some v) (some t) =
      Except.error ExnKind.invalidServerResponse ∧
    update_last_known_state st (some c) (some v) (some t) ≠
      Except.error ExnKind.staleResponseError ∧
    applyUpdate st (c, v, t) = st := by
  have hcond : (pyNe st.chain_id (some (-1)) && pyNe st.chain_id (some c)) = true := by
    rw [hc]
    simp only [pyNe, Bool.and_eq_true, bne_iff_ne]
    exact ⟨h0, fun h => hne h.symm⟩
  have hupd : update_last_known_state st (some c) (some v) (some t) =
      Except.error ExnKind.invalidServerResponse := by
    simp only [update_last_known_state, hcond, if_true]
  exact ⟨hupd, by rw [hupd]; simp, by simp [applyUpdate, hupd]⟩

/-- C2 witness: with stored chain id 2, an update announcing chain id 3 fails
with the chain-mismatch exception even though its version and timestamp are
stale, and the stored state is unchanged. -/
theorem update_chain_mismatch_inst :
    update_last_known_state ⟨some 2, 5, 5⟩ (some 3) (some 0) (some 0) =
      Except.error ExnKind.invalidServerResponse ∧
    update_last_known_state ⟨some 2, 5, 5⟩ (some 3) (some 0) (some 0) ≠
      Except.error ExnKind.staleResponseError ∧
    applyUpdate ⟨some 2, 5, 5⟩ (3, 0, 0) = ⟨some 2, 5, 5⟩ :=
  update_chain_mismatch ⟨some 2, 5, 5⟩ 2 3 0 0 rfl (by decide) (by decide)

/-- C3 counterexample: an envelope carrying a result but none of the three
ledger-state fields is not tolerated by the per-call pipeline: the tracker
update compares the stored version with None and raises TypeError, which is
not caught, so the pipeline raises instead of classifying the result. -/
theorem missing_ledger_fields_cex :
    execute_without_retry initialState ⟨some 1, none, none, none, none⟩ none false =
      (initialState, Except.error ExnKind.typeError) := by
  decide

/-- C3 amended: for every envelope lacking the three ledger-state fields the
pipeline raises rather than skipping the update — TypeError from the ordering
comparison of the stored version with None (or InvalidServerResponse when a
non-sentinel chain id is already stored, since None compares unequal to it);
the tracker state is left unchanged and the result/error members are never
classified. -/
theorem missing_ledger_fields_raise (st : State) (r e : Option Nat)
    (d : Option (Nat → Nat)) (ig : Bool) :
    execute_without_retry st ⟨r, e, none, none, none⟩ d ig =
      (st, Except.error ExnKind.typeError) ∨
    execute_without_retry st ⟨r, e, none, none, none⟩ d ig =
      (st, Except.error ExnKind.invalidServerResponse) := by
  rcases st with ⟨oc, v, t⟩
  rcases oc with _ | c
  · left
    simp [execute_without_retry, send_http_request, update_last_known_state, pyNe]
  · by_cases hc : c = -1
    · subst hc
      left
      simp [execute_without_retry, send_http_request, update_last_known_state, pyNe]
    · right
      simp [execute_without_retry, send_http_request, update_last_known_state, pyNe,
        bne_iff_ne, hc]

/-- C4: when the tracker update raises StaleResponseError inside the
pipeline, executeOnce propagates the StaleResponseError to the caller if
ignore_stale_response is false, and if the flag is true the staleness is
swallowed and processing continues to the normal result/error classification
of the same envelope, with the tracker state unchanged. -/
theorem execute_without_retry_stale (st : State) (env : Envelope)
    (d : Option (Nat → Nat))
    (hstale : update_last_known_state st env.diem_chain_id env.diem_ledger_version
        env.diem_ledger_timestampusec = Except.error ExnKind.staleResponseError) :
    execute_without_retry st env d false = (st, Except.error ExnKind.staleResponseError) ∧
    execute_without_retry st env d true = (st, classify_response env d) := by
  constructor
  · simp [execute_without_retry, send_http_request, hstale]
  · simp [execute_without_retry, send_http_request, hstale]

/-- C4 witness: a concrete stale envelope propagates StaleResponseError when
the flag is false and is classified normally (here: result present, no
decoder) when the flag is true. -/
theorem execute_without_retry_stale_inst :
    execute_without_retry ⟨some 2, 5, 5⟩ ⟨some 1, none, some 2, some 3, some 3⟩ none false =
      (⟨some 2, 5, 5⟩, Except.error ExnKind.staleResponseError) ∧
    execute_without_retry ⟨some 2, 5, 5⟩ ⟨some 1, none, some 2, some 3, some 3⟩ none true =
      (⟨some 2, 5, 5⟩, Except.ok none) := by
  have h := execute_without_retry_stale ⟨some 2, 5, 5⟩
    ⟨some 1, none, some 2, some 3, some 3⟩ none (by decide)
  exact ⟨h.1, by rw [h.2]; decide⟩

/-- C9: the fallback combination of the racing strategy returns the backup
call's result or failure exactly when the primary call fails, and returns the
primary's value untouched by the backup's outcome when the primary
succeeds. -/
theorem fallback_to_backup_behavior :
    ∀ (e : ExnKind) (v : Envelope) (backup : Except ExnKind Envelope),
      fallback_to_backup (Except.error e) backup = backup ∧
      fallback_to_backup (Except.ok v) backup = Except.ok v := by
  intro e v backup
  exact ⟨rfl, rfl⟩

/-- C10: passing timeout_secs = 0 (or wait_duration_secs = 0) to
wait_for_transaction2 behaves identically to passing no value at all: the
Python falsy-or substitution replaces a zero by the built-in default, so no
immediate timeout and no zero-length poll sleep occur. -/
theorem wait_for_transaction2_zero_args_default :
    ∀ (env : WaitEnv) (exp_secs : Int) (txn_hash : Nat) (wd ts : Option ℚ) (fuel : Nat),
      wait_for_transaction2 env exp_secs txn_hash (some 0) wd fuel =
        wait_for_transaction2 env exp_secs txn_hash none wd fuel ∧
      wait_for_transaction2 env exp_secs txn_hash ts (some 0) fuel =
        wait_for_transaction2 env exp_secs txn_hash ts none fuel := by
  intro env exp_secs txn_hash wd ts fuel
  constructor <;> simp [wait_for_transaction2, pyOrDefault]

theorem retryLoop_success {α : Type} (r : Retry) (fn : Nat → Except Exn α) :
    ∀ (k : Nat) (v : α) (tries remaining : Nat),
      k < remaining →
      (∀ i, i ≤ k → 1 ≤ i → errKindOf (fn (tries + i)) = some r.exception) →
      fn (tries + k + 1) = Except.ok v →
      retryLoop r fn tries remaining =
        ⟨k + 1, List.map (fun n : Nat => r.delay_secs * (n : ℚ)) (List.range' (tries + 1) k),
         Except.ok (some v)⟩ := by
  intro k
  induction k with
  | zero =>
    intro v tries remaining hk hfail hsucc
    obtain ⟨m, rfl⟩ : ∃ m, remaining = m + 1 := ⟨remaining - 1, by omega⟩
    simp only [Nat.add_zero] at hsucc
    rw [retryLoop.eq_2, hsucc]
    simp [List.range']
  | succ k ih =>
    intro v tries remaining hk hfail hsucc
    obtain ⟨m, rfl⟩ : ∃ m, remaining = m + 1 := ⟨remaining - 1, by omega⟩
    have hm : k < m := by omega
    obtain ⟨m2, rfl⟩ : ∃ m2, m = m2 + 1 := ⟨m - 1, by omega⟩
    have h1 : errKindOf (fn (tries + 1)) = some r.exception := hfail 1 (by omega) (by omega)
    cases hfn : fn (tries + 1) with
    | ok w => rw [hfn] at h1; simp [errKindOf] at h1
    | error e =>
      rw [hfn] at h1
      simp only [errKindOf, Option.some.injEq] at h1
      have ihres := ih v (tries + 1) (m2 + 1) (by omega)
        (fun i hik h1i => by
          have hh := hfail (i + 1) (by omega) (by omega)
          rw [show tries + (i + 1) = tries + 1 + i from by omega] at hh
          exact hh)
        (by rw [show tries + 1 + k + 1 = tries + (k + 1) + 1 from by omega]; exact hsucc)
      rw [retryLoop.eq_2, hfn]
      simp only [h1, if_true]
      rw [ihres]
      simp [List.range']

/-- C5: for every configuration with maxAttempts at least 1 and every
operation that fails with the configured retryable exception kind on exactly
the first k attempts, k < maxAttempts, and succeeds on attempt k+1,
Retry.execute returns the success value, invokes the operation exactly k+1
times, and sleeps delay_secs*1, delay_secs*2, ..., delay_secs*k between
successive attempts. -/
theorem retry_execute_success {α : Type} (r : Retry) (fn : Nat → Except Exn α)
    (k : Nat) (v : α)
    (hk : k < r.max_retries)
    (hfail : ∀ i, i ≤ k → 1 ≤ i → errKindOf (fn i) = some r.exception)
    (hsucc : fn (k + 1) = Except.ok v) :
    Retry.execute r fn =
      ⟨k + 1, List.map (fun n : Nat => r.delay_secs * (n : ℚ)) (List.range' 1 k),
       Except.ok (some v)⟩ := by
  have h := retryLoop_success r fn k v 0 r.max_retries hk
    (fun i hik h1i => by rw [Nat.zero_add]; exact hfail i hik h1i)
    (by rw [Nat.zero_add]; exact hsucc)
  exact h

/-- C5 witness: with max_retries 3 and delay 2, an operation failing stale
once then succeeding with 42 is invoked twice, one sleep of 2*1 = 2 occurs,
and the success value is returned. -/
theorem retry_execute_success_inst :
    Retry.execute ⟨3, 2, ExnKind.staleResponseError⟩ retryStaleOnceFn =
      ⟨2, [2], Except.ok (some 42)⟩ := by
  rw [retry_execute_success ⟨3, 2, ExnKind.staleResponseError⟩ retryStaleOnceFn 1 42
    (by decide)
    (fun i hik h1i => by
      have hi : i = 1 := by omega
      subst hi
      rfl)
    (by rfl)]
  simp [List.range']

theorem retryLoop_exhaust {α : Type} (r : Retry) (fn : Nat → Except Exn α) :
    ∀ (remaining tries : Nat),
      1 ≤ remaining →
      (∀ i, i ≤ remaining → 1 ≤ i → errKindOf (fn (tries + i)) = some r.exception) →
      (retryLoop r fn tries remaining).calls = remaining ∧
      (retryLoop r fn tries remaining).outcome = Except.map some (fn (tries + remaining)) := by
  intro remaining
  induction remaining with
  | zero => intro tries h; omega
  | succ m ih =>
    intro tries hpos hfail
    have h1 : errKindOf (fn (tries + 1)) = some r.exception := hfail 1 (by omega) (by omega)
    cases hfn : fn (tries + 1) with
    | ok w => rw [hfn] at h1; simp [errKindOf] at h1
    | error e =>
      rw [hfn] at h1
      simp only [errKindOf, Option.some.injEq] at h1
      cases m with
      | zero =>
        rw [retryLoop.eq_2, hfn]
        simp only [h1, if_true]
        exact ⟨by trivial, by rfl⟩
      | succ m2 =>
        have ihres := ih (tries + 1) (by omega)
          (fun i hi h1i => by
            have hh := hfail (i + 1) (by omega) (by omega)
            rw [show tries + (i + 1) = tries + 1 + i from by omega] at hh
            exact hh)
        rw [retryLoop.eq_2, hfn]
        simp only [h1, if_true]
        constructor
        · rw [ihres.1]
        · rw [ihres.2]
          rw [show tries + 1 + (m2 + 1) = tries + (m2 + 1 + 1) from by omega]

/-- C6: for every configuration with maxAttempts at least 1 and every
operation that fails with the configured retryable exception kind on every
attempt, Retry.execute invokes the operation exactly maxAttempts times and
propagates the exception raised by the final attempt itself (not a distinct
retries-exhausted kind). -/
theorem retry_execute_exhaust {α : Type} (r : Retry) (fn : Nat → Except Exn α)
    (hpos : 1 ≤ r.max_retries)
    (hfail : ∀ i, i ≤ r.max_retries → 1 ≤ i → errKindOf (fn i) = some r.exception) :
    (Retry.execute r fn).calls = r.max_retries ∧
    (Retry.execute r fn).outcome = Except.map some (fn r.max_retries) := by
  have h := retryLoop_exhaust r fn r.max_retries 0 hpos
    (fun i hik h1i => by rw [Nat.zero_add]; exact hfail i hik h1i)
  rw [Nat.zero_add] at h
  exact h

/-- C6 witness: with max_retries 2, an always-stale operation is invoked
exactly twice and the exception of attempt 2 (payload 2) is the surfaced
failure. -/
theorem retry_execute_exhaust_inst :
    (Retry.execute ⟨2, 3, ExnKind.staleResponseError⟩ retryAlwaysStaleFn).calls = 2 ∧
    (Retry.execute ⟨2, 3, ExnKind.staleResponseError⟩ retryAlwaysStaleFn).outcome =
      Except.error ⟨ExnKind.staleResponseError, 2⟩ := by
  have h := retry_execute_exhaust ⟨2, 3, ExnKind.staleResponseError⟩ retryAlwaysStaleFn
    (by decide) (fun i hik h1i => rfl)
  exact ⟨h.1, by rw [h.2]; rfl⟩

/-- C7: for every configuration with maxAttempts at least 1 and every
operation whose first invocation raises an exception of a kind different from
the configured retryable kind, Retry.execute invokes the operation exactly
once, performs no backoff sleep, and propagates that exception immediately. -/
theorem retry_execute_non_retryable {α : Type} (r : Retry) (fn : Nat → Except Exn α)
    (e : Exn)
    (hpos : 1 ≤ r.max_retries) (hfn : fn 1 = Except.error e)
    (hk : e.kind ≠ r.exception) :
    Retry.execute r fn = ⟨1, [], Except.error e⟩ := by
  obtain ⟨m, hm⟩ : ∃ m, r.max_retries = m + 1 := ⟨r.max_retries - 1, by omega⟩
  unfold Retry.execute
  rw [hm, retryLoop.eq_2]
  rw [show fn (0 + 1) = Except.error e from hfn]
  simp [hk]

/-- C7 witness: an operation failing with a network error on attempt 1 is
invoked once, no sleep occurs, and that very exception surfaces. -/
theorem retry_execute_non_retryable_inst :
    Retry.execute ⟨3, 2, ExnKind.staleResponseError⟩ retryNetworkFailFn =
      ⟨1, [], Except.error ⟨ExnKind.networkError, 1⟩⟩ :=
  retry_execute_non_retryable ⟨3, 2, ExnKind.staleResponseError⟩ retryNetworkFailFn
    ⟨ExnKind.networkError, 1⟩ (by decide) rfl (by decide)

theorem wait_loop_expired (env : WaitEnv) (exp_secs : Int) (txn_hash : Nat) (mw p : ℚ) :
    ∀ (N i : Nat),
      (∀ j, j ≤ N → env.timeAt (i + j) < mw) →
      (∀ j, j ≤ N → env.txnAt (i + j) = none) →
      (∀ j, j < N → (env.stateAt (i + j)).timestamp_usecs < exp_secs * 1000000) →
      exp_secs * 1000000 ≤ (env.stateAt (i + N)).timestamp_usecs →
      ∀ fuel, N < fuel →
        (wait_loop env exp_secs txn_hash mw p fuel i).2 =
          some (Except.error ExnKind.transactionExpired) := by
  intro N
  induction N with
  | zero =>
    intro i htime htxn hbefore hat fuel hfuel
    obtain ⟨f, rfl⟩ : ∃ f, fuel = f + 1 := ⟨fuel - 1, by omega⟩
    have h0 : env.timeAt i < mw := by simpa using htime 0 (by omega)
    have h1 : env.txnAt i = none := by simpa using htxn 0 (by omega)
    have h2 : exp_secs * 1000000 ≤ (env.stateAt i).timestamp_usecs := by simpa using hat
    simp [wait_loop, h0, h1, h2]
  | succ N ih =>
    intro i htime htxn hbefore hat fuel hfuel
    obtain ⟨f, rfl⟩ : ∃ f, fuel = f + 1 := ⟨fuel - 1, by omega⟩
    have h0 : env.timeAt i < mw := by simpa using htime 0 (by omega)
    have h1 : env.txnAt i = none := by simpa using htxn 0 (by omega)
    have h2 : ¬ exp_secs * 1000000 ≤ (env.stateAt i).timestamp_usecs := by
      have hb := hbefore 0 (by omega)
      simp only [Nat.add_zero] at hb
      omega
    have ihx := ih (i + 1)
      (fun j hj => by
        have hh := htime (j + 1) (by omega)
        rw [show i + (j + 1) = i + 1 + j from by omega] at hh
        exact hh)
      (fun j hj => by
        have hh := htxn (j + 1) (by omega)
        rw [show i + (j + 1) = i + 1 + j from by omega] at hh
        exact hh)
      (fun j hj => by
        have hh := hbefore (j + 1) (by omega)
        rw [show i + (j + 1) = i + 1 + j from by omega] at hh
        exact hh)
      (by
        have hh := hat
        rw [show i + (N + 1) = i + 1 + N from by omega] at hh
        exact hh)
      f (by omega)
    simpa [wait_loop, h0, h1, h2] using ihx

theorem wait_loop_no_timeout (env : WaitEnv) (exp_secs : Int) (txn_hash : Nat) (mw p : ℚ) :
    ∀ (N i fuel : Nat),
      (∀ j, j ≤ N → env.timeAt (i + j) < mw) →
      (∀ j, j ≤ N → env.txnAt (i + j) = none) →
      (∀ j, j < N → (env.stateAt (i + j)).timestamp_usecs < exp_secs * 1000000) →
      exp_secs * 1000000 ≤ (env.stateAt (i + N)).timestamp_usecs →
      (wait_loop env exp_secs txn_hash mw p fuel i).2 ≠
        some (Except.error ExnKind.waitForTransactionTimeout) := by
  intro N
  induction N with
  | zero =>
    intro i fuel htime htxn hbefore hat
    cases fuel with
    | zero => simp [wait_loop]
    | succ f =>
      have h0 : env.timeAt i < mw := by simpa using htime 0 (by omega)
      have h1 : env.txnAt i = none := by simpa using htxn 0 (by omega)
      have h2 : exp_secs * 1000000 ≤ (env.stateAt i).timestamp_usecs := by simpa using hat
      simp [wait_loop, h0, h1, h2]
  | succ N ih =>
    intro i fuel htime htxn hbefore hat
    cases fuel with
    | zero => simp [wait_loop]
    | succ f =>
      have h0 : env.timeAt i < mw := by simpa using htime 0 (by omega)
      have h1 : env.txnAt i = none := by simpa using htxn 0 (by omega)
      have h2 : ¬ exp_secs * 1000000 ≤ (env.stateAt i).timestamp_usecs := by
        have hb := hbefore 0 (by omega)
        simp only [Nat.add_zero] at hb
        omega
      have ihx := ih (i + 1) f
        (fun j hj => by
          have hh := htime (j + 1) (by omega)
          rw [show i + (j + 1) = i + 1 + j from by omega] at hh
          exact hh)
        (fun j hj => by
          have hh := htxn (j + 1) (by omega)
          rw [show i + (j + 1) = i + 1 + j from by omega] at hh
          exact hh)
        (fun j hj => by
          have hh := hbefore (j + 1) (by omega)
          rw [show i + (j + 1) = i + 1 + j from by omega] at hh
          exact hh)
        (by
          have hh := hat
          rw [show i + (N + 1) = i + 1 + N from by omega] at hh
          exact hh)
      simpa [wait_loop, h0, h1, h2] using ihx

/-- C8: with a positive timeout and a lookup collaborator that finds no
transaction while the tracked ledger timestamp has not reached
expiration_time_secs scaled to microseconds, the wait loop fails with
TransactionExpired exactly at the first iteration whose tracker snapshot
satisfies expiration_time_secs * 1000000 ≤ timestamp_usecs (all polling
happening inside the timeout window), and it never fails with
WaitForTransactionTimeout before that threshold is crossed. -/
theorem wait_for_transaction2_expired (env : WaitEnv) (exp_secs : Int) (txn_hash : Nat)
    (wd : Option ℚ) (T : ℚ) (N : Nat)
    (hT : 0 < T)
    (hwin : ∀ j, j ≤ N → env.timeAt j < env.startTime + T)
    (htxn : ∀ j, j ≤ N → env.txnAt j = none)
    (hbefore : ∀ j, j < N → (env.stateAt j).timestamp_usecs < exp_secs * 1000000)
    (hat : exp_secs * 1000000 ≤ (env.stateAt N).timestamp_usecs) :
    (wait_for_transaction2 env exp_secs txn_hash (some T) wd (N + 1)).2 =
      some (Except.error ExnKind.transactionExpired) ∧
    ∀ fuel, (wait_for_transaction2 env exp_secs txn_hash (some T) wd fuel).2 ≠
      some (Except.error ExnKind.waitForTransactionTimeout) := by
  have hTe : pyOrDefault (some T) DEFAULT_WAIT_FOR_TRANSACTION_TIMEOUT_SECS = T := by
    simp only [pyOrDefault]
    rw [if_neg (show ¬ T = 0 from fun h => by rw [h] at hT; exact lt_irrefl 0 hT)]
  constructor
  · have h := wait_loop_expired env exp_secs txn_hash (env.startTime + T)
      (pyOrDefault wd DEFAULT_WAIT_FOR_TRANSACTION_WAIT_DURATION_SECS) N 0
      (fun j hj => by rw [Nat.zero_add]; exact hwin j hj)
      (fun j hj => by rw [Nat.zero_add]; exact htxn j hj)
      (fun j hj => by rw [Nat.zero_add]; exact hbefore j hj)
      (by rw [Nat.zero_add]; exact hat)
      (N + 1) (by omega)
    simp only [wait_for_transaction2, hTe]
    exact h
  · intro fuel
    have h := wait_loop_no_timeout env exp_secs txn_hash (env.startTime + T)
      (pyOrDefault wd DEFAULT_WAIT_FOR_TRANSACTION_WAIT_DURATION_SECS) N 0 fuel
      (fun j hj => by rw [Nat.zero_add]; exact hwin j hj)
      (fun j hj => by rw [Nat.zero_add]; exact htxn j hj)
      (fun j hj => by rw [Nat.zero_add]; exact hbefore j hj)
      (by rw [Nat.zero_add]; exact hat)
    simp only [wait_for_transaction2, hTe]
    exact h

/-- C8 witness: in a run whose tracked timestamp reaches the expiry threshold
at iteration 1, the wait fails with TransactionExpired at fuel 2 and does not
fail with WaitForTransactionTimeout at fuel 5. -/
theorem wait_for_transaction2_expired_inst :
    (wait_for_transaction2 waitEnvExpiring 1 0 (some 10) none 2).2 =
      some (Except.error ExnKind.transactionExpired) ∧
    (wait_for_transaction2 waitEnvExpiring 1 0 (some 10) none 5).2 ≠
      some (Except.error ExnKind.waitForTransactionTimeout) := by
  have h := wait_for_transaction2_expired waitEnvExpiring 1 0 none 10 1
    (by decide)
    (by simp [waitEnvExpiring])
    (by simp [waitEnvExpiring])
    (fun j hj => by
      have hj0 : j = 0 := by omega
      subst hj0
      decide)
    (by decide)
  exact ⟨h.1, h.2 5⟩
